import Mathlib

/-!
Verification of the numeric transformation functions of the `nse-2022`
teaching notebooks: residual-load computation, residual-load duration
curves, the bucket-storage simulation, the FCR droop function, the
power-converter efficiency curves and the LFP calendar-aging model.

Dataframes are modelled as records of named numeric columns (`List ℚ`);
a column that a notebook cell may not have created yet is `Option`al.
The notebook functions mutate the dataframe passed to them in place and
then return it, so each is embedded as a map from the contents of the
caller's dataframe before the call to its contents after the call, which
is also the returned value.  Exact rational arithmetic stands in for
Python floats; the square-root based aging model is embedded over `ℝ`.
-/

namespace NSE

/-- In-memory table with the numeric columns the notebooks use.  A column
that may not have been created yet is modelled as an `Option` (`none` means
the column is absent from the dataframe). -/
structure DataFrame where
  load : List ℚ
  solar : List ℚ
  wind : List ℚ
  residual : Option (List ℚ) := none
  energy : Option (List ℚ) := none
  power_DC : Option (List ℚ) := none
  power_AC : Option (List ℚ) := none
deriving Repr, DecidableEq

/-- The pointwise series `df["load"] - df["solar"] - df["wind"]` (pandas
subtraction of series over the same index is element-by-element). -/
def residual_series (df : DataFrame) : List ℚ :=
  List.zipWith (· - ·) (List.zipWith (· - ·) df.load df.solar) df.wind

/-- `add_residual` from the lecture-3 notebook:
`df["residual"] = df["load"] - df["solar"] - df["wind"]; return df`.
The assignment creates/overwrites the `residual` column of the caller's
dataframe in place and the same object is returned. -/
def add_residual (df : DataFrame) : DataFrame :=
  { df with residual := some (residual_series df) }

/-- `residual` from the lecture-6 notebook; its body is identical to
`add_residual`. -/
def residual (df : DataFrame) : DataFrame :=
  { df with residual := some (residual_series df) }

/-- `Series.sort_values(ascending=False)`: the values of the series
rearranged in non-increasing order. -/
def sort_values_desc (xs : List ℚ) : List ℚ :=
  List.mergeSort xs (fun a b => decide (b ≤ a))

/-- The y-values of the data trace of `plot_residual_curve_DE`:
`df["residual"].sort_values(ascending=False).values`. -/
def plot_residual_curve_DE_y (residual_col : List ℚ) : List ℚ :=
  sort_values_desc residual_col

/-- The y-values of the trace that `plot_residual_curves` adds for one
column: `residual.sort_values(ascending=False).values`. -/
def plot_residual_curves_y (residual_col : List ℚ) : List ℚ :=
  sort_values_desc residual_col

/-- The storage power requested in one loop iteration of
`simulate_bucket_storage`: discharge at `row.residual / eta_out` when the
residual is positive, otherwise charge at `row.residual * eta_in` limited
from below by `-max_p_stor`. -/
def bucket_p_stor (r eta_in eta_out max_p_stor : ℚ) : ℚ :=
  if r > 0 then r / eta_out else max (r * eta_in) (-max_p_stor)

/-- One loop iteration of `simulate_bucket_storage`: from the state of
energy `soe_old` and the row's residual `r`, the values written to the
`power_DC`, `power_AC` and `energy` columns (the last one is the new state
of energy `soe_new`, clipped to `[0, capacity]`). -/
def bucket_step (capacity max_p_stor eta_in eta_out soe_old r : ℚ) : ℚ × ℚ × ℚ :=
  let p_stor := bucket_p_stor r eta_in eta_out max_p_stor
  let soe_new := soe_old - p_stor * 1
  let soe_new := min (max soe_new 0) capacity
  let power_ac := if r > 0 then (soe_new - soe_old) * eta_out
    else (soe_new - soe_old) / eta_in
  (soe_new - soe_old, power_ac, soe_new)

/-- The loop of `simulate_bucket_storage` over all rows, threading the
state of energy; returns the rows of `(power_DC, power_AC, energy)`. -/
def bucket_run (capacity max_p_stor eta_in eta_out soe_old : ℚ) :
    List ℚ → List (ℚ × ℚ × ℚ)
  | [] => []
  | r :: rs =>
    let out := bucket_step capacity max_p_stor eta_in eta_out soe_old r
    out :: bucket_run capacity max_p_stor eta_in eta_out out.2.2 rs

/-- `simulate_bucket_storage` from the lecture-6 notebook, on a dataframe
whose `residual` column is present: starting from the state of energy
`capacity * 0.5` it fills the `energy`, `power_DC` and `power_AC` columns
of the caller's dataframe in place and returns it. -/
def simulate_bucket_storage (df : DataFrame)
    (capacity max_p_stor eta_in eta_out : ℚ) : DataFrame :=
  let rows := bucket_run capacity max_p_stor eta_in eta_out (capacity * 0.5)
    (df.residual.getD [])
  { df with
      energy := some (rows.map (fun t => t.2.2)),
      power_DC := some (rows.map (fun t => t.1)),
      power_AC := some (rows.map (fun t => t.2.1)) }

/-- `np.sign`: `1` on positive input, `-1` on negative input, `0` at `0`. -/
def np_sign (x : ℚ) : ℚ :=
  if x > 0 then 1 else if x < 0 then -1 else 0

/-- `fcr_power` from the NB2 solution notebook: zero inside the frequency
dead-band `|fn - f| < fdb`, otherwise the droop power
`(fn - f) * Pn / (fn * S)` saturated in magnitude at `Pn` with its sign
kept. -/
def fcr_power (f fn Pn S fdb : ℚ) : ℚ :=
  let delta_f := fn - f
  if |delta_f| < fdb then 0
  else
    let Pg := delta_f * Pn / (fn * S)
    np_sign Pg * min |Pg| Pn

/-- The default inverter-loss parameters `(k0, k2) = (0.02, 0.005)` of
`unit_efficiency`. -/
def params_default : ℚ × ℚ := (0.02, 0.005)

/-- The denominator of `unit_efficiency`:
`power_ratio + k0 + k2 * power_ratio ** 2`. -/
def unit_efficiency_den ( power_ratio : ℚ) (params : ℚ × ℚ) : ℚ :=
  power_ratio + params.1 + params.2 * power_ratio ^ 2

/-- `unit_efficiency` from the NB2 solution notebook:
`power_ratio / (power_ratio + k0 + k2 * power_ratio ** 2)`. -/
def unit_efficiency ( power_ratio : ℚ) (params : ℚ × ℚ) : ℚ :=
  power_ratio / unit_efficiency_den power_ratio params

/-- `unit_efficiency` with the divisions checked: Python raises
`ZeroDivisionError` when the denominator is zero, embedded as
`Except.error`. -/
def unit_efficiencyE ( power_ratio : ℚ) (params : ℚ × ℚ) : Except String ℚ :=
  if unit_efficiency_den power_ratio params = 0 then
    Except.error "ZeroDivisionError"
  else
    Except.ok ( power_ratio / unit_efficiency_den power_ratio params)

/-- `power_converter_uniform` from the NB2 solution notebook: the AC power
is spread uniformly over the `units` units, so the per-unit power ratio is
`abs(power) / power_max` (the unit count cancels); discharge divides by
the efficiency, charge multiplies by it. -/
def power_converter_uniform (power power_max : ℚ) (units : ℕ) : ℚ :=
  let power_ratio := |power| / power_max
  let eff := unit_efficiency power_ratio params_default
  if power > 0 then power / eff else power * eff

/-- `power_converter_uniform` with every division checked, mirroring
Python's `ZeroDivisionError`. -/
def power_converter_uniformE (power power_max : ℚ) (units : ℕ) :
    Except String ℚ :=
  if power_max = 0 then Except.error "ZeroDivisionError"
  else
    let power_ratio := |power| / power_max
    match unit_efficiencyE power_ratio params_default with
    | Except.error e => Except.error e
    | Except.ok eff =>
      if power > 0 then
        if eff = 0 then Except.error "ZeroDivisionError"
        else Except.ok (power / eff)
      else Except.ok (power * eff)

/-- `power_converter_cascade` from the NB2 solution notebook: `0` at zero
power, otherwise only `ceil(abs(power) / unit_power)` units are active and
the power ratio is taken relative to the active units. -/
def power_converter_cascade (power power_max : ℚ) (units : ℕ) : ℚ :=
  if power = 0 then 0
  else
    let unit_power := power_max / (units : ℚ)
    let active_units : ℤ := Int.ceil (|power| / unit_power)
    let power_ratio := |power| / ((active_units : ℚ) * unit_power)
    let eff := unit_efficiency power_ratio params_default
    if power > 0 then power / eff else power * eff

/-- `power_converter_cascade` with every division checked, mirroring
Python's `ZeroDivisionError`. -/
def power_converter_cascadeE (power power_max : ℚ) (units : ℕ) :
    Except String ℚ :=
  if power = 0 then Except.ok 0
  else if (units : ℚ) = 0 then Except.error "ZeroDivisionError"
  else
    let unit_power := power_max / (units : ℚ)
    if unit_power = 0 then Except.error "ZeroDivisionError"
    else
      let active_units : ℤ := Int.ceil (|power| / unit_power)
      if (active_units : ℚ) * unit_power = 0 then
        Except.error "ZeroDivisionError"
      else
        let power_ratio := |power| / ((active_units : ℚ) * unit_power)
        match unit_efficiencyE power_ratio params_default with
        | Except.error e => Except.error e
        | Except.ok eff =>
          if power > 0 then
            if eff = 0 then Except.error "ZeroDivisionError"
            else Except.ok (power / eff)
          else Except.ok (power * eff)

/-- One loop iteration of `simulate_bucket_storage` with the divisions by
`eta_out` (discharge) and `eta_in` (charge) checked, mirroring Python's
`ZeroDivisionError`. -/
def bucket_stepE (capacity max_p_stor eta_in eta_out soe_old r : ℚ) :
    Except String (ℚ × ℚ × ℚ) :=
  if r > 0 then
    if eta_out = 0 then Except.error "ZeroDivisionError"
    else
      let p_stor := r / eta_out
      let soe_new := min (max (soe_old - p_stor * 1) 0) capacity
      Except.ok (soe_new - soe_old, (soe_new - soe_old) * eta_out, soe_new)
  else
    if eta_in = 0 then Except.error "ZeroDivisionError"
    else
      let p_stor := max (r * eta_in) (-max_p_stor)
      let soe_new := min (max (soe_old - p_stor * 1) 0) capacity
      Except.ok (soe_new - soe_old, (soe_new - soe_old) / eta_in, soe_new)

/-- The loop of `simulate_bucket_storage` with checked steps. -/
def bucket_runE (capacity max_p_stor eta_in eta_out soe_old : ℚ) :
    List ℚ → Except String (List (ℚ × ℚ × ℚ))
  | [] => Except.ok []
  | r :: rs =>
    match bucket_stepE capacity max_p_stor eta_in eta_out soe_old r with
    | Except.error e => Except.error e
    | Except.ok out =>
      match bucket_runE capacity max_p_stor eta_in eta_out out.2.2 rs with
      | Except.error e => Except.error e
      | Except.ok rest => Except.ok (out :: rest)

/-- `simulate_bucket_storage` with its failure modes made explicit: the
`residual` column must be present (`row.residual` raises otherwise) and no
division inside the loop may be by zero. -/
def simulate_bucket_storageE (df : DataFrame)
    (capacity max_p_stor eta_in eta_out : ℚ) : Except String DataFrame :=
  match df.residual with
  | none => Except.error "AttributeError"
  | some rs =>
    match bucket_runE capacity max_p_stor eta_in eta_out (capacity * 0.5) rs with
    | Except.error e => Except.error e
    | Except.ok rows =>
      Except.ok { df with
        energy := some (rows.map (fun t => t.2.2)),
        power_DC := some (rows.map (fun t => t.1)),
        power_AC := some (rows.map (fun t => t.2.1)) }

/-- The SOC-dependent coefficient of the LFP calendar-aging model in
`lfp_calendar`: `C_QLOSS * (soc - 0.5) ** 3 + D_QLOSS` with
`C_QLOSS = 2.8575` and `D_QLOSS = 0.60225`. -/
noncomputable def k_soc (soc : ℝ) : ℝ :=
  2.8575 * (soc - 0.5) ^ 3 + 0.60225

/-- The temperature-dependent coefficient of `lfp_calendar` at the default
25 °C: `1.2571e-5`. -/
noncomputable def lfp_k_temp : ℝ :=
  1.2571e-5

/-- The inner loop of `lfp_calendar`, producing the per-step capacity
losses: each step reconstructs the virtual elapsed time
`(cum_loss / k) ** 2` from the cumulative loss so far and evaluates the
square-root law at `virtual_time + dt`. -/
noncomputable def lfp_calendar_losses (dt : ℝ) : ℝ → List ℝ → List ℝ
  | _, [] => []
  | cum, soc :: socs =>
    let k := lfp_k_temp * k_soc soc
    let virtual_time := (cum / k) ^ 2
    let loss := k_soc soc * lfp_k_temp * Real.sqrt (virtual_time + dt) - cum
    loss :: lfp_calendar_losses dt (cum + loss) socs

/-- `lfp_calendar` from the NB4 assignment notebook: the array of per-step
capacity losses of the SOC profile `socs` with timestep `dt`, iterated for
`years` passes over the profile with the cumulative loss carried across
passes. -/
noncomputable def lfp_calendar (socs : List ℝ) (dt : ℝ) (years : ℕ) : List ℝ :=
  lfp_calendar_losses dt 0 (List.flatten (List.replicate years socs))

/-- A small concrete dataframe used to instantiate theorems with
hypotheses on concrete inputs. -/
def dfW : DataFrame :=
  { load := [5, 7], solar := [1, 2], wind := [1, 1] }

/-- A concrete dataframe with a residual column, used to instantiate the
storage-simulation theorems on a concrete input. -/
def dfR : DataFrame :=
  { load := [5, 7], solar := [1, 2], wind := [1, 1], residual := some [3, -2] }

theorem sort_values_desc_perm (xs : List ℚ) : (sort_values_desc xs).Perm xs :=
  List.mergeSort_perm xs _

theorem sort_values_desc_sorted (xs : List ℚ) :
    List.Sorted (· ≥ ·) (sort_values_desc xs) := by
  have h := @List.sorted_mergeSort ℚ (fun a b : ℚ => decide (b ≤ a))
    (fun a b c hab hbc => by
      simp only [decide_eq_true_eq] at *
      exact le_trans hbc hab)
    (fun a b => by simpa using le_total b a) xs
  exact h.imp (fun hab => by simpa using hab)

/-- C7: the residual load duration curve plotted by
`plot_residual_curve_DE` and by `plot_residual_curves` is the residual
series rearranged in non-increasing order: a permutation of the input
values in which every element is greater than or equal to the next. -/
theorem C7_duration_curve_sorted_permutation (xs : List ℚ) :
    (plot_residual_curve_DE_y xs).Perm xs ∧
    List.Sorted (· ≥ ·) (plot_residual_curve_DE_y xs) ∧
    (plot_residual_curves_y xs).Perm xs ∧
    List.Sorted (· ≥ ·) (plot_residual_curves_y xs) :=
  ⟨sort_values_desc_perm xs, sort_values_desc_sorted xs,
    sort_values_desc_perm xs, sort_values_desc_sorted xs⟩

/-- C1: on a dataframe whose load, solar and wind columns are series over
the same index, `add_residual` (lecture-3 notebook) and `residual`
(lecture-6 notebook) write the column
`residual[t] = load[t] - solar[t] - wind[t]` at every position `t` and
leave the load, solar and wind columns equal to their input values. -/
theorem C1_residual_is_load_minus_solar_minus_wind (df : DataFrame)
    (h1 : df.solar.length = df.load.length)
    (h2 : df.wind.length = df.load.length) :
    (add_residual df).load = df.load ∧
    (add_residual df).solar = df.solar ∧
    (add_residual df).wind = df.wind ∧
    residual df = add_residual df ∧
    ∃ rs : List ℚ, (add_residual df).residual = some rs ∧
      rs.length = df.load.length ∧
      ∀ i : ℕ, i < df.load.length →
        rs.getD i 0 = df.load.getD i 0 - df.solar.getD i 0 - df.wind.getD i 0 := by
  refine ⟨rfl, rfl, rfl, rfl, residual_series df, rfl, ?_, ?_⟩
  · simp [residual_series, h1, h2]
  · intro i hi
    unfold residual_series
    rw [List.getD_eq_getElem _ _ (by simp [h1, h2]; omega)]
    rw [List.getD_eq_getElem _ _ hi, List.getD_eq_getElem _ _ (by omega),
      List.getD_eq_getElem _ _ (by omega)]
    simp [List.getElem_zipWith]

/-- Witness for C1 at a concrete dataframe. -/
theorem C1_witness :
    (dfW.solar.length = dfW.load.length ∧ dfW.wind.length = dfW.load.length) ∧
    ((add_residual dfW).load = dfW.load ∧
      (add_residual dfW).solar = dfW.solar ∧
      (add_residual dfW).wind = dfW.wind ∧
      residual dfW = add_residual dfW ∧
      ∃ rs : List ℚ, (add_residual dfW).residual = some rs ∧
        rs.length = dfW.load.length ∧
        ∀ i : ℕ, i < dfW.load.length →
          rs.getD i 0 = dfW.load.getD i 0 - dfW.solar.getD i 0 - dfW.wind.getD i 0) :=
  ⟨⟨rfl, rfl⟩, C1_residual_is_load_minus_solar_minus_wind dfW rfl rfl⟩

theorem bucket_run_energy_bounds (c m ei eo : ℚ) (hc : 0 ≤ c) :
    ∀ (rs : List ℚ) (soe : ℚ) (t : ℚ × ℚ × ℚ),
      t ∈ bucket_run c m ei eo soe rs → 0 ≤ t.2.2 ∧ t.2.2 ≤ c
  | [], _, t, ht => by simp [bucket_run] at ht
  | r :: rs, soe, t, ht => by
    simp only [bucket_run, List.mem_cons] at ht
    rcases ht with h | h
    · subst h
      simp only [bucket_step]
      exact ⟨le_min (le_max_right _ _) hc, min_le_right _ _⟩
    · exact bucket_run_energy_bounds c m ei eo hc rs _ t h

/-- C2: for every input residual series and parameters
`capacity ≥ 0`, `max_p_stor ≥ 0`, `eta_in, eta_out ∈ (0, 1]`,
`simulate_bucket_storage` starts from the state of energy
`capacity * 0.5` and every value it writes to the `energy` column lies in
the closed interval `[0, capacity]` (the state of charge is clipped to its
bounds at every step). -/
theorem C2_energy_column_within_bounds (df : DataFrame) (c m ei eo : ℚ)
    (hc : 0 ≤ c) (hm : 0 ≤ m) (hei0 : 0 < ei) (hei1 : ei ≤ 1)
    (heo0 : 0 < eo) (heo1 : eo ≤ 1) :
    ∃ es : List ℚ, (simulate_bucket_storage df c m ei eo).energy = some es ∧
      ∀ e ∈ es, 0 ≤ e ∧ e ≤ c := by
  refine ⟨_, rfl, ?_⟩
  intro e he
  simp only [simulate_bucket_storage, List.mem_map] at he
  obtain ⟨t, ht, rfl⟩ := he
  exact bucket_run_energy_bounds c m ei eo hc _ _ t ht

/-- Witness for C2 at a concrete dataframe and parameters. -/
theorem C2_witness :
    ((0:ℚ) ≤ 2 ∧ (0:ℚ) ≤ 1 ∧ (0:ℚ) < 1/2 ∧ (1/2:ℚ) ≤ 1 ∧
      (0:ℚ) < 1/2 ∧ (1/2:ℚ) ≤ 1) ∧
    (∃ es : List ℚ,
      (simulate_bucket_storage dfR 2 1 (1/2) (1/2)).energy = some es ∧
      ∀ e ∈ es, 0 ≤ e ∧ e ≤ 2) :=
  ⟨⟨by norm_num, by norm_num, by norm_num, by norm_num, by norm_num,
      by norm_num⟩,
    C2_energy_column_within_bounds dfR 2 1 (1/2) (1/2) (by norm_num)
      (by norm_num) (by norm_num) (by norm_num) (by norm_num) (by norm_num)⟩

/-- C9: in `simulate_bucket_storage` the power limit `max_p_stor` is
applied only when charging: on a step with positive residual (discharge)
the requested storage power is exactly `residual / eta_out`, independent
of `max_p_stor`, whereas on a step with nonpositive residual (charge) the
requested power has magnitude at most `max_p_stor`. -/
theorem C9_power_limit_only_on_charge (r ei eo m : ℚ)
    (hm : 0 ≤ m) (hei : 0 < ei) :
    (0 < r → bucket_p_stor r ei eo m = r / eo) ∧
    (r ≤ 0 → |bucket_p_stor r ei eo m| ≤ m) := by
  constructor
  · intro hr
    simp [bucket_p_stor, hr]
  · intro hr
    have hr' : ¬ r > 0 := not_lt.mpr hr
    simp only [bucket_p_stor, hr', if_false]
    rw [abs_le]
    refine ⟨le_max_right _ _, max_le ?_ ?_⟩
    · have h1 : r * ei ≤ 0 := mul_nonpos_iff.mpr (Or.inr ⟨hr, hei.le⟩)
      linarith
    · linarith

/-- Witness for C9 at a concrete charging step. -/
theorem C9_witness :
    ((0:ℚ) ≤ 1 ∧ (0:ℚ) < 1/2) ∧
    ((0 < (-3 : ℚ) → bucket_p_stor (-3) (1/2) (1/2) 1 = -3 / (1/2)) ∧
      ((-3 : ℚ) ≤ 0 → |bucket_p_stor (-3) (1/2) (1/2) 1| ≤ 1)) :=
  ⟨⟨by norm_num, by norm_num⟩,
    C9_power_limit_only_on_charge (-3) (1/2) (1/2) 1 (by norm_num) (by norm_num)⟩

theorem unit_efficiency_den_pos (r : ℚ) (h : 0 ≤ r) :
    0 < unit_efficiency_den r params_default := by
  simp only [unit_efficiency_den, params_default]
  nlinarith [sq_nonneg r]

theorem unit_efficiency_pos (r : ℚ) (h : 0 < r) :
    0 < unit_efficiency r params_default :=
  div_pos h (unit_efficiency_den_pos r h.le)

theorem unit_efficiency_lt_one (r : ℚ) (h : 0 < r) :
    unit_efficiency r params_default < 1 := by
  rw [unit_efficiency, div_lt_one (unit_efficiency_den_pos r h.le)]
  simp only [unit_efficiency_den, params_default]
  nlinarith [sq_nonneg r]

theorem unit_efficiencyE_ok (r : ℚ) (h : 0 ≤ r) :
    unit_efficiencyE r params_default =
      Except.ok (unit_efficiency r params_default) := by
  simp [unit_efficiencyE, unit_efficiency, (unit_efficiency_den_pos r h).ne']

theorem power_converter_uniformE_ok (power pm : ℚ) (units : ℕ)
    (hpm : 0 < pm) :
    power_converter_uniformE power pm units =
      Except.ok (power_converter_uniform power pm units) := by
  have hratio : 0 ≤ |power| / pm := div_nonneg (abs_nonneg _) hpm.le
  simp only [power_converter_uniformE, power_converter_uniform, hpm.ne',
    if_false, unit_efficiencyE_ok _ hratio]
  by_cases hp : power > 0
  · have hr0 : 0 < |power| / pm := div_pos (abs_pos.mpr hp.ne') hpm
    simp [hp, (unit_efficiency_pos _ hr0).ne']
  · simp [hp]

theorem power_converter_cascadeE_ok (power pm : ℚ) (units : ℕ)
    (hpm : 0 < pm) (hu : 1 ≤ units) :
    power_converter_cascadeE power pm units =
      Except.ok (power_converter_cascade power pm units) := by
  by_cases hp0 : power = 0
  · simp [power_converter_cascadeE, power_converter_cascade, hp0]
  · have huq : (0 : ℚ) < (units : ℚ) := by exact_mod_cast hu
    have hup : 0 < pm / (units : ℚ) := div_pos hpm huq
    have habs : 0 < |power| := abs_pos.mpr hp0
    have hcz : (0 : ℤ) < Int.ceil (|power| / (pm / (units : ℚ))) :=
      Int.ceil_pos.mpr (div_pos habs hup)
    have hcq : (0 : ℚ) < ((Int.ceil (|power| / (pm / (units : ℚ))) : ℤ) : ℚ) := by
      exact_mod_cast hcz
    have hden : 0 <
        ((Int.ceil (|power| / (pm / (units : ℚ))) : ℤ) : ℚ) * (pm / (units : ℚ)) :=
      mul_pos hcq hup
    have hratio : 0 < |power| /
        (((Int.ceil (|power| / (pm / (units : ℚ))) : ℤ) : ℚ) * (pm / (units : ℚ))) :=
      div_pos habs hden
    simp only [power_converter_cascadeE, power_converter_cascade, hp0,
      if_false, huq.ne', hup.ne', hden.ne', unit_efficiencyE_ok _ hratio.le]
    by_cases hp : power > 0
    · simp [hp, (unit_efficiency_pos _ hratio).ne']
    · simp [hp]

/-- C5: for every `power_max > 0`, unit count `units ≥ 1` and every AC
power setpoint (including `0`), the checked evaluations of
`power_converter_uniform` and `power_converter_cascade` succeed (no
division by zero is ever evaluated), both converters return `0` at zero
power without dividing by the zero efficiency, `unit_efficiency` itself
never divides by zero on nonnegative power ratios, and its denominator is
bounded below by `k0 > 0`. -/
theorem C5_no_division_by_zero (power pm r : ℚ) (units : ℕ)
    (hpm : 0 < pm) (hu : 1 ≤ units) (hr : 0 ≤ r) :
    power_converter_uniformE power pm units =
      Except.ok (power_converter_uniform power pm units) ∧
    power_converter_cascadeE power pm units =
      Except.ok (power_converter_cascade power pm units) ∧
    power_converter_uniform 0 pm units = 0 ∧
    power_converter_cascade 0 pm units = 0 ∧
    unit_efficiencyE r params_default =
      Except.ok (unit_efficiency r params_default) ∧
    0 < params_default.1 ∧
    params_default.1 ≤ unit_efficiency_den r params_default := by
  refine ⟨power_converter_uniformE_ok power pm units hpm,
    power_converter_cascadeE_ok power pm units hpm hu, ?_, ?_,
    unit_efficiencyE_ok r hr, by norm_num [params_default], ?_⟩
  · simp [power_converter_uniform, unit_efficiency, unit_efficiency_den]
  · simp [power_converter_cascade]
  · simp only [unit_efficiency_den, params_default]
    nlinarith [sq_nonneg r]

/-- Witness for C5 at concrete inputs. -/
theorem C5_witness :
    ((0:ℚ) < 1 ∧ 1 ≤ 8 ∧ (0:ℚ) ≤ 1/2) ∧
    (power_converter_uniformE (1/4) 1 8 =
        Except.ok (power_converter_uniform (1/4) 1 8) ∧
      power_converter_cascadeE (1/4) 1 8 =
        Except.ok (power_converter_cascade (1/4) 1 8) ∧
      power_converter_uniform 0 1 8 = 0 ∧
      power_converter_cascade 0 1 8 = 0 ∧
      unit_efficiencyE (1/2) params_default =
        Except.ok (unit_efficiency (1/2) params_default) ∧
      0 < params_default.1 ∧
      params_default.1 ≤ unit_efficiency_den (1/2) params_default) :=
  ⟨⟨by norm_num, by norm_num, by norm_num⟩,
    C5_no_division_by_zero (1/4) 1 (1/2) 8 (by norm_num) (by norm_num)
      (by norm_num)⟩

/-- C10: with the default parameters `k0 = 0.02`, `k2 = 0.005`,
`unit_efficiency` maps every nonnegative power ratio into `[0, 1)`: it is
exactly `0` at ratio `0`, and strictly between `0` and `1` on every
positive ratio. -/
theorem C10_unit_efficiency_range (r : ℚ) (h : 0 ≤ r) :
    (r = 0 → unit_efficiency r params_default = 0) ∧
    (0 < r → 0 < unit_efficiency r params_default ∧
      unit_efficiency r params_default < 1) := by
  constructor
  · rintro rfl
    simp [unit_efficiency, unit_efficiency_den]
  · intro hr
    exact ⟨unit_efficiency_pos r hr, unit_efficiency_lt_one r hr⟩

/-- Witness for C10 at a concrete power ratio. -/
theorem C10_witness :
    ((0:ℚ) ≤ 1) ∧
    (((1:ℚ) = 0 → unit_efficiency 1 params_default = 0) ∧
      (0 < (1:ℚ) → 0 < unit_efficiency 1 params_default ∧
        unit_efficiency 1 params_default < 1)) :=
  ⟨by norm_num, C10_unit_efficiency_range 1 (by norm_num)⟩

theorem bucket_stepE_ok (c m ei eo soe r : ℚ) (hei : ei ≠ 0) (heo : eo ≠ 0) :
    bucket_stepE c m ei eo soe r = Except.ok (bucket_step c m ei eo soe r) := by
  unfold bucket_stepE bucket_step bucket_p_stor
  by_cases hr : r > 0 <;> simp [hr, hei, heo]

theorem bucket_runE_ok (c m ei eo : ℚ) (hei : ei ≠ 0) (heo : eo ≠ 0) :
    ∀ (rs : List ℚ) (soe : ℚ),
      bucket_runE c m ei eo soe rs = Except.ok (bucket_run c m ei eo soe rs)
  | [], _ => rfl
  | r :: rs, soe => by
    simp only [bucket_runE, bucket_run, bucket_stepE_ok c m ei eo soe r hei heo,
      bucket_runE_ok c m ei eo hei heo rs]

theorem simulate_bucket_storageE_ok (df : DataFrame) (c m ei eo : ℚ)
    (rs : List ℚ) (hres : df.residual = some rs)
    (hei : ei ≠ 0) (heo : eo ≠ 0) :
    simulate_bucket_storageE df c m ei eo =
      Except.ok (simulate_bucket_storage df c m ei eo) := by
  unfold simulate_bucket_storageE simulate_bucket_storage
  rw [hres]
  simp [bucket_runE_ok c m ei eo hei heo rs]

/-- C8: on well-formed input (residual column present, nonzero
efficiencies, positive installed power) `simulate_bucket_storage`, the
residual functions and the converter-efficiency functions terminate
normally with a value: their checked evaluations never produce an error
result. -/
theorem C8_no_error_on_well_formed_input (df : DataFrame) (c m ei eo : ℚ)
    (rs : List ℚ) (power pm : ℚ) (units : ℕ)
    (hres : df.residual = some rs) (hei : ei ≠ 0) (heo : eo ≠ 0)
    (hpm : 0 < pm) (hu : 1 ≤ units) :
    simulate_bucket_storageE df c m ei eo =
      Except.ok (simulate_bucket_storage df c m ei eo) ∧
    power_converter_uniformE power pm units =
      Except.ok (power_converter_uniform power pm units) ∧
    power_converter_cascadeE power pm units =
      Except.ok (power_converter_cascade power pm units) ∧
    (add_residual df).residual = some (residual_series df) ∧
    (residual df).residual = some (residual_series df) :=
  ⟨simulate_bucket_storageE_ok df c m ei eo rs hres hei heo,
    power_converter_uniformE_ok power pm units hpm,
    power_converter_cascadeE_ok power pm units hpm hu, rfl, rfl⟩

/-- Witness for C8 at concrete inputs. -/
theorem C8_witness :
    (dfR.residual = some [3, -2] ∧ (1/2 : ℚ) ≠ 0 ∧ (1/2 : ℚ) ≠ 0 ∧
      (0:ℚ) < 1 ∧ 1 ≤ 8) ∧
    (simulate_bucket_storageE dfR 2 1 (1/2) (1/2) =
        Except.ok (simulate_bucket_storage dfR 2 1 (1/2) (1/2)) ∧
      power_converter_uniformE (1/4) 1 8 =
        Except.ok (power_converter_uniform (1/4) 1 8) ∧
      power_converter_cascadeE (1/4) 1 8 =
        Except.ok (power_converter_cascade (1/4) 1 8) ∧
      (add_residual dfR).residual = some (residual_series dfR) ∧
      (residual dfR).residual = some (residual_series dfR)) :=
  ⟨⟨rfl, by norm_num, by norm_num, by norm_num, by norm_num⟩,
    C8_no_error_on_well_formed_input dfR 2 1 (1/2) (1/2) [3, -2] (1/4) 1 8
      rfl (by norm_num) (by norm_num) (by norm_num) (by norm_num)⟩

/-- C4 counterexample: `add_residual` does not leave the dataframe passed
to it unchanged — it adds the `residual` column to the caller's dataframe
in place. -/
theorem C4_counterexample_add_residual_mutates :
    add_residual { load := [1], solar := [0], wind := [0] } ≠
      ({ load := [1], solar := [0], wind := [0] } : DataFrame) := by
  decide

/-- C4 (amended): `add_residual` and `simulate_bucket_storage` mutate the
caller's dataframe in place and return that same object: the result
columns (`residual`; `energy`, `power_DC`, `power_AC`) are created or
overwritten on the input dataframe, while the input's `load`, `solar` and
`wind` columns (and, for `simulate_bucket_storage`, its `residual` column)
keep their input values. -/
theorem C4_amended_mutate_in_place_preserving_inputs (df : DataFrame)
    (c m ei eo : ℚ) :
    (add_residual df).load = df.load ∧
    (add_residual df).solar = df.solar ∧
    (add_residual df).wind = df.wind ∧
    (add_residual df).residual = some (residual_series df) ∧
    (simulate_bucket_storage df c m ei eo).load = df.load ∧
    (simulate_bucket_storage df c m ei eo).solar = df.solar ∧
    (simulate_bucket_storage df c m ei eo).wind = df.wind ∧
    (simulate_bucket_storage df c m ei eo).residual = df.residual ∧
    ((simulate_bucket_storage df c m ei eo).energy).isSome = true ∧
    ((simulate_bucket_storage df c m ei eo).power_DC).isSome = true ∧
    ((simulate_bucket_storage df c m ei eo).power_AC).isSome = true :=
  ⟨rfl, rfl, rfl, rfl, rfl, rfl, rfl, rfl, rfl, rfl, rfl⟩

/-- C3 counterexample: at the exact dead-band edge `f = fn - fdb` (with
`fn = 50`, `Pn = 1`, `S = 1/10`, `fdb = 1/5`), `fcr_power` returns a
strictly positive power although `f < fn - fdb` does not hold, so the
returned power is not positive exactly when `f < fn - fdb`. -/
theorem C3_counterexample_deadband_edge :
    ¬ (0 < fcr_power (249/5) 50 1 (1/10) (1/5) ↔ (249/5 : ℚ) < 50 - 1/5) := by
  have h1 : fcr_power (249/5) 50 1 (1/10) (1/5) = 1/25 := by
    simp only [fcr_power, np_sign]
    norm_num [abs_of_pos]
  rw [h1]
  norm_num

/-- C3 (amended): for `fn > 0`, `Pn > 0`, `S > 0`, `fdb ≥ 0`, `fcr_power`
returns `0` whenever `|fn - f| < fdb`, otherwise returns
`(fn - f) * Pn / (fn * S)` saturated in magnitude at `Pn`; the returned
power always satisfies `|fcr_power| ≤ Pn` and is positive exactly when
`fdb ≤ fn - f` and `f < fn` (under-frequency beyond the dead-band means
discharge; at the dead-band edge `f = fn - fdb` with `fdb > 0` the power
is already positive, since the dead-band test is strict). -/
theorem C3_amended_fcr_power_droop (f fn Pn S fdb : ℚ)
    (hfn : 0 < fn) (hPn : 0 < Pn) (hS : 0 < S) (hdb : 0 ≤ fdb) :
    (|fn - f| < fdb → fcr_power f fn Pn S fdb = 0) ∧
    (fdb ≤ |fn - f| → fcr_power f fn Pn S fdb =
      max (-Pn) (min ((fn - f) * Pn / (fn * S)) Pn)) ∧
    |fcr_power f fn Pn S fdb| ≤ Pn ∧
    (0 < fcr_power f fn Pn S fdb ↔ (fdb ≤ fn - f ∧ 0 < fn - f)) := by
  have hK : 0 < fn * S := mul_pos hfn hS
  set Pg := (fn - f) * Pn / (fn * S) with hPgdef
  have heq : ∀ _ : ¬ |fn - f| < fdb,
      fcr_power f fn Pn S fdb = np_sign Pg * min |Pg| Pn := by
    intro h
    simp only [fcr_power, if_neg h]
  have hval : ¬ |fn - f| < fdb →
      fcr_power f fn Pn S fdb = max (-Pn) (min Pg Pn) := by
    intro h
    rw [heq h]
    rcases lt_trichotomy (fn - f) 0 with hd | hd | hd
    · have hPg : Pg < 0 :=
        div_neg_of_neg_of_pos (mul_neg_of_neg_of_pos hd hPn) hK
      rw [np_sign, if_neg (by linarith), if_pos hPg, abs_of_neg hPg]
      have e2 : min Pg Pn = Pg := min_eq_left (by linarith)
      rw [e2]
      rcases le_or_lt (-Pn) Pg with hc | hc
      · have e1 : min (-Pg) Pn = -Pg := min_eq_left (by linarith)
        rw [e1, max_eq_right hc]
        ring
      · have e1 : min (-Pg) Pn = Pn := min_eq_right (by linarith)
        rw [e1, max_eq_left (by linarith)]
        ring
    · have hPg : Pg = 0 := by rw [hPgdef, hd]; ring
      rw [hPg, np_sign]
      have e2 : min (0:ℚ) Pn = 0 := min_eq_left hPn.le
      rw [if_neg (by norm_num), if_neg (by norm_num), abs_zero, e2,
        max_eq_right (by linarith)]
      ring
    · have hPg : 0 < Pg := div_pos (mul_pos hd hPn) hK
      rw [np_sign, if_pos hPg, one_mul, abs_of_pos hPg,
        max_eq_right (le_trans (by linarith) (le_min hPg.le hPn.le))]
  refine ⟨fun h => by simp [fcr_power, h], fun h => hval (not_lt.mpr h), ?_, ?_⟩
  · by_cases h : |fn - f| < fdb
    · simp [fcr_power, h, hPn.le]
    · rw [hval h, abs_le]
      exact ⟨le_max_left _ _, max_le (by linarith) (min_le_right _ _)⟩
  · by_cases h : |fn - f| < fdb
    · rw [(by simp [fcr_power, h] : fcr_power f fn Pn S fdb = 0)]
      constructor
      · intro hc
        exact absurd hc (by norm_num)
      · rintro ⟨h1, h2⟩
        rw [abs_of_pos h2] at h
        linarith
    · rw [heq h]
      rcases lt_trichotomy (fn - f) 0 with hd | hd | hd
      · have hPg : Pg < 0 :=
          div_neg_of_neg_of_pos (mul_neg_of_neg_of_pos hd hPn) hK
        rw [np_sign, if_neg (by linarith), if_pos hPg]
        constructor
        · intro hc
          have hmin : 0 < min |Pg| Pn := lt_min (abs_pos.mpr hPg.ne) hPn
          nlinarith
        · rintro ⟨_, h2⟩
          linarith
      · have hPg : Pg = 0 := by rw [hPgdef, hd]; ring
        rw [hPg, np_sign]
        constructor
        · intro hc
          rw [if_neg (by norm_num), if_neg (by norm_num)] at hc
          norm_num at hc
        · rintro ⟨_, h2⟩
          linarith
      · have hPg : 0 < Pg := div_pos (mul_pos hd hPn) hK
        rw [np_sign, if_pos hPg, one_mul]
        have hmin : 0 < min |Pg| Pn := lt_min (abs_pos.mpr hPg.ne') hPn
        constructor
        · intro _
          refine ⟨?_, hd⟩
          rw [abs_of_pos hd] at h
          linarith
        · intro _
          exact hmin

/-- Witness for the amended C3 at a concrete under-frequency input. -/
theorem C3_witness :
    ((0:ℚ) < 50 ∧ (0:ℚ) < 1 ∧ (0:ℚ) < 1/10 ∧ (0:ℚ) ≤ 1/5) ∧
    ((|(50 : ℚ) - 49| < 1/5 → fcr_power 49 50 1 (1/10) (1/5) = 0) ∧
      ((1/5 : ℚ) ≤ |(50 : ℚ) - 49| → fcr_power 49 50 1 (1/10) (1/5) =
        max (-1) (min (((50 : ℚ) - 49) * 1 / (50 * (1/10))) 1)) ∧
      |fcr_power 49 50 1 (1/10) (1/5)| ≤ 1 ∧
      (0 < fcr_power 49 50 1 (1/10) (1/5) ↔
        ((1/5 : ℚ) ≤ 50 - 49 ∧ 0 < (50 : ℚ) - 49))) :=
  ⟨⟨by norm_num, by norm_num, by norm_num, by norm_num⟩,
    C3_amended_fcr_power_droop 49 50 1 (1/10) (1/5) (by norm_num)
      (by norm_num) (by norm_num) (by norm_num)⟩

theorem k_soc_pos (s : ℝ) (h : 0 ≤ s) : 0 < k_soc s := by
  have key : k_soc s = 2.8575 * (s * ((s - 0.75) ^ 2 + 3 / 16)) + 0.2450625 := by
    unfold k_soc
    ring
  nlinarith [mul_nonneg h (by positivity : (0:ℝ) ≤ (s - 0.75) ^ 2 + 3 / 16)]

theorem lfp_k_temp_pos : 0 < lfp_k_temp := by
  unfold lfp_k_temp
  norm_num

theorem lfp_losses_const_sum (s dt : ℝ) (hk : lfp_k_temp * k_soc s ≠ 0)
    (hdt : 0 ≤ dt) :
    ∀ (N n : ℕ),
      (lfp_calendar_losses dt (lfp_k_temp * k_soc s * Real.sqrt (n * dt))
          (List.replicate N s)).sum =
        lfp_k_temp * k_soc s * Real.sqrt ((n + N) * dt) -
          lfp_k_temp * k_soc s * Real.sqrt (n * dt)
  | 0, n => by simp [lfp_calendar_losses]
  | N + 1, n => by
    rw [List.replicate_succ]
    simp only [lfp_calendar_losses, List.sum_cons]
    have hdiv : lfp_k_temp * k_soc s * Real.sqrt (n * dt) / (lfp_k_temp * k_soc s) =
        Real.sqrt (n * dt) := mul_div_cancel_left₀ _ hk
    have hsq : Real.sqrt (n * dt) ^ 2 = n * dt :=
      Real.sq_sqrt (mul_nonneg (Nat.cast_nonneg n) hdt)
    rw [hdiv, hsq]
    have hcum : lfp_k_temp * k_soc s * Real.sqrt (n * dt) +
        (k_soc s * lfp_k_temp * Real.sqrt (n * dt + dt) -
          lfp_k_temp * k_soc s * Real.sqrt (n * dt)) =
        lfp_k_temp * k_soc s * Real.sqrt ((n + 1 : ℕ) * dt) := by
      have : ((n + 1 : ℕ) : ℝ) * dt = n * dt + dt := by
        push_cast
        ring
      rw [this]
      ring
    rw [hcum, lfp_losses_const_sum s dt hk hdt N (n + 1)]
    have h1 : ((n + 1 : ℕ) : ℝ) + (N : ℝ) = (n : ℝ) + ((N + 1 : ℕ) : ℝ) := by
      push_cast
      ring
    rw [h1]
    have h2 : ((n + 1 : ℕ) : ℝ) * dt = n * dt + dt := by
      push_cast
      ring
    rw [h2]
    ring

/-- C6: under constant stress the incremental LFP calendar-aging loop
telescopes to the closed-form square-root law: for every SOC value
`s ∈ [0, 1]` held constant, every timestep `dt > 0` and every number of
steps `N ≥ 1`, the cumulative loss accumulated by `lfp_calendar` after
`N` steps equals `k_temp * k_soc(s) * sqrt(N * dt)` with
`k_soc(s) = 2.8575 * (s - 0.5)^3 + 0.60225` and `k_temp = 1.2571e-5`. -/
theorem C6_lfp_calendar_closed_form (s dt : ℝ) (N : ℕ)
    (hdt : 0 < dt) (hs0 : 0 ≤ s) (hs1 : s ≤ 1) (hN : 1 ≤ N) :
    (lfp_calendar (List.replicate N s) dt 1).sum =
      lfp_k_temp * k_soc s * Real.sqrt (N * dt) := by
  have hk : lfp_k_temp * k_soc s ≠ 0 :=
    (mul_pos lfp_k_temp_pos (k_soc_pos s hs0)).ne'
  unfold lfp_calendar
  have hflat : List.flatten (List.replicate 1 (List.replicate N s)) =
      List.replicate N s := by simp
  rw [hflat]
  have h := lfp_losses_const_sum s dt hk hdt.le N 0
  simpa using h

/-- Witness for C6 at a concrete constant-SOC profile. -/
theorem C6_witness :
    ((0:ℝ) < 1 ∧ (0:ℝ) ≤ 1/2 ∧ (1/2:ℝ) ≤ 1 ∧ 1 ≤ 1) ∧
    (lfp_calendar (List.replicate 1 ((1:ℝ)/2)) 1 1).sum =
      lfp_k_temp * k_soc ((1:ℝ)/2) * Real.sqrt (((1:ℕ) : ℝ) * 1) :=
  ⟨⟨by norm_num, by norm_num, by norm_num, le_refl 1⟩,
    C6_lfp_calendar_closed_form ((1:ℝ)/2) 1 1 (by norm_num) (by norm_num)
      (by norm_num) (le_refl 1)⟩

end NSE
